import Mathlib

/-!
Shallow embedding of the CatBox process-isolation sandbox (Rust), covering:
the syscall filter (`src/syscall.rs`), the parent supervision loop and the
child exec error channel (`src/catbox.rs`), the cgroup accountant
(`src/cgroup.rs`), and jail construction (`change_root` in `src/catbox.rs`).

Machine integers are modelled as `Nat`/`Int`; the i32 quota counter of the
syscall filter decrements with explicit two's-complement wrap-around
(`wrap32`), matching release-mode Rust. Rust's truncating integer division
is `Int.tdiv`; nix's floor-normalizing `TimeVal` arithmetic uses
`Int.fdiv`/`Int.fmod`. Fallible operations return `Except CatBoxError` and
external effects (waitpid outcomes, cgroup probe results, filesystem
operations) are passed in explicitly as data.
-/

/-- Two's-complement wrap of an integer into the i32 range, as performed by
release-mode Rust arithmetic on `i32`. -/
def wrap32 (x : Int) : Int :=
  ((x + 2 ^ 31) % 2 ^ 32) - 2 ^ 31

/-- Conversion `as u64` of an i64 value: two's-complement reinterpretation. -/
def toU64 (x : Int) : Nat :=
  (x % 2 ^ 64).toNat

/-- Process id (nix `Pid`, an i32). -/
abbrev Pid := Int

/-- Register snapshot returned by `ptrace::getregs`; the engine only ever
reads `orig_rax` (the syscall number, a `c_ulonglong`). -/
structure UserRegs where
  orig_rax : Nat

/-- Error taxonomy of `src/error.rs` (`CatBoxError`). The `Nix` payload keeps
the errno's rendering as a string; `Logger` keeps the logger error text. -/
inductive CatBoxError where
  | Fork (msg : String)
  | Cgroup (msg : String)
  | Exec (msg : String)
  | Nix (errno : String)
  | Fs (msg : String)
  | Cli (msg : String)
  | Logger (msg : String)
  | Unknown (msg : String)
deriving DecidableEq

/-- Constructor helper `CatBoxError::cli` from `src/error.rs`. -/
def CatBoxError.cli (msg : String) : CatBoxError :=
  CatBoxError.Cli msg

/-- Constructor helper `CatBoxError::cgroup` from `src/error.rs`. -/
def CatBoxError.cgroup (msg : String) : CatBoxError :=
  CatBoxError.Cgroup msg

/-- Constructor helper `CatBoxError::exec` from `src/error.rs`. -/
def CatBoxError.exec (msg : String) : CatBoxError :=
  CatBoxError.Exec msg

/-- Syscall permission entry (`SyscallPerm` in `src/syscall.rs`): forbid,
predicate function, or allow-with-quota (an `i32` counter). -/
inductive SyscallPerm where
  | Forbid
  | FilterFn (func : Pid → UserRegs → Bool)
  | Allow (count : Int)

/-- Black-list syscall filter (`SyscallFilter` in `src/syscall.rs`). The
`HashMap<SyscallId, SyscallPerm>` is modelled as an association list with
unique keys; insertion replaces an existing binding in place. -/
structure SyscallFilter where
  map : List (Nat × SyscallPerm)

/-- HashMap insert: replace the binding when the key is present, otherwise
append a fresh binding. -/
def insertPerm (m : List (Nat × SyscallPerm)) (k : Nat) (v : SyscallPerm) :
    List (Nat × SyscallPerm) :=
  if m.any (fun p => p.1 = k) then
    m.map (fun p => if p.1 = k then (k, v) else p)
  else
    m ++ [(k, v)]

/-- HashMap lookup on the association-list model. -/
def lookupPerm : List (Nat × SyscallPerm) → Nat → Option SyscallPerm
  | [], _ => none
  | (k', v) :: rest, k => if k' = k then some v else lookupPerm rest k

/-- Preset category (`RestrictedSyscall` in `src/syscall.rs`). -/
inductive RestrictedSyscall where
  | Net
  | Process
  | Thread
deriving DecidableEq

/-- Linux x86-64 syscall numbers used by the presets (values of the
`nix::libc::SYS_*` constants on the only supported target). -/
def SYS_socket : Nat := 41

def SYS_socketpair : Nat := 53

def SYS_setsockopt : Nat := 54

def SYS_getsockopt : Nat := 55

def SYS_getsockname : Nat := 51

def SYS_getpeername : Nat := 52

def SYS_bind : Nat := 49

def SYS_listen : Nat := 50

def SYS_accept : Nat := 43

def SYS_accept4 : Nat := 288

def SYS_shutdown : Nat := 48

def SYS_execve : Nat := 59

def SYS_execveat : Nat := 322

def SYS_fork : Nat := 57

def SYS_vfork : Nat := 58

def SYS_clone : Nat := 56

def SYS_clone3 : Nat := 435

/-- Method `SyscallFilter::new`: the empty filter. -/
def SyscallFilter.new : SyscallFilter :=
  { map := [] }

/-- Method `SyscallFilter::forbid`. -/
def SyscallFilter.forbid (f : SyscallFilter) (id : Nat) : SyscallFilter :=
  { map := insertPerm f.map id SyscallPerm.Forbid }

/-- Method `SyscallFilter::allow`. -/
def SyscallFilter.allow (f : SyscallFilter) (id : Nat) (count : Int) : SyscallFilter :=
  { map := insertPerm f.map id (SyscallPerm.Allow count) }

/-- Method `SyscallFilter::add_fn`. -/
def SyscallFilter.add_fn (f : SyscallFilter) (id : Nat)
    (func : Pid → UserRegs → Bool) : SyscallFilter :=
  { map := insertPerm f.map id (SyscallPerm.FilterFn func) }

/-- Method `SyscallFilter::enable`: install a preset. In the source the
`Net` arm has `SYS_socket` (and `SYS_connect`) commented out, so neither is
inserted; `Thread` installs nothing. -/
def SyscallFilter.enable (f : SyscallFilter) (feature : RestrictedSyscall) :
    SyscallFilter :=
  match feature with
  | RestrictedSyscall.Net =>
    ((((((((((f.forbid SYS_socketpair).forbid SYS_setsockopt).forbid
      SYS_getsockopt).forbid SYS_getsockname).forbid
      SYS_getpeername).forbid SYS_bind).forbid SYS_listen).forbid
      SYS_accept).forbid SYS_accept4).forbid SYS_shutdown)
  | RestrictedSyscall.Process =>
    (((((f.allow SYS_execve 1).allow SYS_execveat 1).forbid
      SYS_fork).forbid SYS_vfork).forbid SYS_clone).forbid SYS_clone3
  | RestrictedSyscall.Thread => f

/-- Method `SyscallFilter::default`: enable the `Net` preset, then the
`Process` preset, on an empty filter. -/
def SyscallFilter.default : SyscallFilter :=
  (SyscallFilter.new.enable RestrictedSyscall.Net).enable RestrictedSyscall.Process

/-- Method `SyscallFilter::filter`: look up `regs.orig_rax`; absent entries
allow; `Forbid` denies; `FilterFn` consults the predicate; `Allow` denies at
exactly 0 and otherwise decrements the i32 counter (with wrap-around) and
allows. The Rust method mutates the filter and returns `bool`; the model
returns the decision together with the updated filter. -/
def SyscallFilter.filter (f : SyscallFilter) (pid : Pid) (regs : UserRegs) :
    Bool × SyscallFilter :=
  let syscall_id := regs.orig_rax
  match lookupPerm f.map syscall_id with
  | none => (true, f)
  | some SyscallPerm.Forbid => (false, f)
  | some (SyscallPerm.FilterFn func) => (func pid regs, f)
  | some (SyscallPerm.Allow count) =>
    if count = 0 then
      (false, f)
    else
      (true, { map := insertPerm f.map syscall_id (SyscallPerm.Allow (wrap32 (count - 1))) })

/-- ASCII lowercasing of one character, as in `str::to_ascii_lowercase`. -/
def asciiLowerChar (c : Char) : Char :=
  if 'A' ≤ c ∧ c ≤ 'Z' then Char.ofNat (c.toNat + 32) else c

/-- Rust `str::split(" ")` on the character list: split on each single
space, keeping empty pieces. -/
def splitOnSpace : List Char → List (List Char)
  | [] => [[]]
  | c :: rest =>
    let r := splitOnSpace rest
    if c = ' ' then
      [] :: r
    else
      match r with
      | [] => [[c]]
      | h :: t => (c :: h) :: t

/-- Rust `str::trim` on the character list: drop leading and trailing
whitespace. -/
def trimChars (l : List Char) : List Char :=
  (((l.dropWhile Char.isWhitespace).reverse).dropWhile Char.isWhitespace).reverse

/-- Tokenization step of `SyscallFilter::parse_presets`: split every input
string on single spaces, trim whitespace, ASCII-lowercase, and drop empty
pieces. Commas are not separators. -/
def presetTokens (presets : List String) : List String :=
  ((presets.flatMap (fun s => splitOnSpace s.data)).map
    (fun p => String.mk ((trimChars p).map asciiLowerChar))).filter
    (fun p => 0 < p.length)

/-- Loop body of `SyscallFilter::parse_presets` over the token list: the
token `none` returns `Ok(None)` immediately; `net`/`network`, `process` and
`all` enable presets on the accumulated filter; any other token aborts with
a CLI error. -/
def processPresets : List String → SyscallFilter → Except CatBoxError (Option SyscallFilter)
  | [], filter => Except.ok (some filter)
  | t :: rest, filter =>
    if t = "none" then
      Except.ok none
    else if t = "net" ∨ t = "network" then
      processPresets rest (filter.enable RestrictedSyscall.Net)
    else if t = "process" then
      processPresets rest (filter.enable RestrictedSyscall.Process)
    else if t = "all" then
      processPresets rest ((filter.enable RestrictedSyscall.Net).enable RestrictedSyscall.Process)
    else
      Except.error (CatBoxError.cli "Parse ptrace syscall filter string fails")

/-- Method `SyscallFilter::parse_presets`. -/
def SyscallFilter.parse_presets (presets : List String) :
    Except CatBoxError (Option SyscallFilter) :=
  processPresets (presetTokens presets) SyscallFilter.new

/-- Unix signals (the nix `Signal` enum; names and set as on Linux). -/
inductive Signal where
  | SIGHUP
  | SIGINT
  | SIGQUIT
  | SIGILL
  | SIGTRAP
  | SIGABRT
  | SIGBUS
  | SIGFPE
  | SIGKILL
  | SIGUSR1
  | SIGSEGV
  | SIGUSR2
  | SIGPIPE
  | SIGALRM
  | SIGTERM
  | SIGSTKFLT
  | SIGCHLD
  | SIGCONT
  | SIGSTOP
  | SIGTSTP
  | SIGTTIN
  | SIGTTOU
  | SIGURG
  | SIGXCPU
  | SIGXFSZ
  | SIGVTALRM
  | SIGPROF
  | SIGWINCH
  | SIGIO
  | SIGPWR
  | SIGSYS
deriving DecidableEq

/-- Outcome of one `waitpid` call (the nix `WaitStatus` variants matched in
`run`, `src/catbox.rs`). -/
inductive WaitStatus where
  | Exited (pid : Pid) (status : Int)
  | Signaled (pid : Pid) (signal : Signal) (coreDumped : Bool)
  | Stopped (pid : Pid) (signal : Signal)
  | PtraceSyscall (pid : Pid)
  | PtraceEvent (pid : Pid) (signal : Signal) (event : Int)
  | Continued (pid : Pid)
  | StillAlive

/-- Mutable state of the parent supervision loop in `run`: the cloned
syscall filter (`filter`) and the last observed stop signal
(`last_signal`). -/
structure LoopState where
  filter : Option SyscallFilter
  last_signal : Option Signal

/-- Ptrace action the parent issues on a continuing iteration of the
supervision loop. -/
inductive PtraceAction where
  | contWithSignal (signal : Signal)
  | syscallCont
  | kill

/-- Result of one iteration of the supervision loop: break out of the loop
with `(status, signal)`, continue with an updated state after issuing a
ptrace action, or hit an `unreachable!`/`unimplemented!` panic. -/
inductive StepOutcome where
  | brk (status : Option Int) (signal : Option Signal)
  | next (st : LoopState) (act : PtraceAction)
  | panic

/-- Signals of the "may be time limit exceeded" arm of the loop. -/
def tleSignals : List Signal :=
  [Signal.SIGALRM, Signal.SIGVTALRM, Signal.SIGXCPU]

/-- Signals of the runtime-error arm of the loop. -/
def reSignals : List Signal :=
  [Signal.SIGBUS, Signal.SIGFPE, Signal.SIGILL, Signal.SIGSEGV,
   Signal.SIGSYS, Signal.SIGXFSZ, Signal.SIGABRT]

/-- One iteration of the parent supervision loop of `run`
(`src/catbox.rs`): the `match` on the `waitpid` outcome. `regs` is the
result of `ptrace::getregs` at a `SIGTRAP` stop (`none` models `Err`).
Forwarded fatal signals are remembered in `last_signal` and the child is
resumed with `ptrace::cont(pid, signal)`; a forbidden syscall is answered
with `ptrace::kill` and the loop continues waiting. -/
def loopStep (st : LoopState) (ev : WaitStatus) (regs : Option UserRegs) :
    StepOutcome :=
  match ev with
  | WaitStatus.Exited _ status => StepOutcome.brk (some status) st.last_signal
  | WaitStatus.Signaled _ signal _ => StepOutcome.brk none (some signal)
  | WaitStatus.Stopped pid signal =>
    if signal = Signal.SIGALRM ∨ signal = Signal.SIGVTALRM ∨ signal = Signal.SIGXCPU then
      StepOutcome.next { st with last_signal := some signal }
        (PtraceAction.contWithSignal signal)
    else if signal = Signal.SIGTRAP then
      match regs with
      | some user_regs =>
        match st.filter with
        | some filter =>
          let decision := filter.filter pid user_regs
          if decision.1 then
            StepOutcome.next { st with filter := some decision.2 } PtraceAction.syscallCont
          else
            StepOutcome.next { st with filter := some decision.2 } PtraceAction.kill
        | none => StepOutcome.next st PtraceAction.syscallCont
      | none => StepOutcome.next st PtraceAction.syscallCont
    else if signal = Signal.SIGBUS ∨ signal = Signal.SIGFPE ∨ signal = Signal.SIGILL ∨
        signal = Signal.SIGSEGV ∨ signal = Signal.SIGSYS ∨ signal = Signal.SIGXFSZ ∨
        signal = Signal.SIGABRT then
      StepOutcome.next { st with last_signal := some signal }
        (PtraceAction.contWithSignal signal)
    else
      StepOutcome.panic
  | WaitStatus.PtraceSyscall _ => StepOutcome.panic
  | WaitStatus.PtraceEvent _ _ _ => StepOutcome.panic
  | WaitStatus.Continued _ => StepOutcome.panic
  | WaitStatus.StillAlive => StepOutcome.panic

/-- The whole supervision loop over a trace of `waitpid` outcomes (each
paired with the `ptrace::getregs` result the parent would see at that
stop). Returns the `(status, signal)` pair the loop breaks with, or `none`
when the trace is exhausted or a panic arm is hit. -/
def runLoop (st : LoopState) : List (WaitStatus × Option UserRegs) →
    Option (Option Int × Option Signal)
  | [] => none
  | (ev, regs) :: rest =>
    match loopStep st ev regs with
    | StepOutcome.brk status signal => some (status, signal)
    | StepOutcome.next st' _ => runLoop st' rest
    | StepOutcome.panic => none

/-- Resource usage record (`CatBoxUsage` in `src/cgroup.rs`); all fields
are `u64` milliseconds / KiB. -/
structure CatBoxUsage where
  time : Nat
  time_user : Nat
  time_sys : Nat
  memory : Nat
deriving DecidableEq

/-- Run result (`CatBoxResult` in `src/context/mod.rs`). -/
structure CatBoxResult where
  status : Option Int
  signal : Option Signal
  time : Nat
  time_user : Nat
  time_sys : Nat
  memory : Nat
deriving DecidableEq

/-- Constructor `CatBoxResult::new`: store the loop's `(status, signal)`
pair unchanged next to the usage counters. -/
def CatBoxResult.new (status : Option Int) (signal : Option Signal)
    (usage : CatBoxUsage) : CatBoxResult :=
  { status := status
    signal := signal
    time := usage.time
    time_user := usage.time_user
    time_sys := usage.time_sys
    memory := usage.memory }

/-- Model of a nix `Errno` as the child would report it on `execvpe`
failure: its description (`desc()`) and its debug rendering (`{:?}`). -/
structure ExecErrno where
  desc : String
  debugName : String

/-- Message the child writes to the pipe in `run` when `execvpe` returns an
error, before `_exit(1)`; on the success path `execvpe` never returns and
nothing is written. -/
def childPipeMessage (execResult : Option ExecErrno) : Option String :=
  match execResult with
  | none => none
  | some e => some ("Execvpe fails: " ++ e.desc ++ " (Errno: " ++ e.debugName ++ ")")

/-- Rust `str::strip_prefix` on the character lists: peel the pattern off
the front, or fail. -/
def stripPrefixChars : List Char → List Char → Option (List Char)
  | [], m => some m
  | _ :: _, [] => none
  | p :: ps, c :: cs => if p = c then stripPrefixChars ps cs else none

/-- Rust `str::strip_prefix`. -/
def stripPrefixStr (p m : String) : Option String :=
  (stripPrefixChars p.data m.data).map String.mk

/-- Post-loop epilogue of `run` in the parent (`src/catbox.rs`): one
non-blocking pipe read (`none` models `Err`, e.g. `EAGAIN`); a non-empty
payload is returned as an `Exec` error, stripped of the `"Execvpe fails: "`
code; otherwise the result record is assembled from the loop outcome and
the collected usage. -/
def parentEpilogue (readResult : Option String) (status : Option Int)
    (signal : Option Signal) (usage : CatBoxUsage) :
    Except CatBoxError CatBoxResult :=
  match readResult with
  | some message =>
    if 0 < message.length then
      match stripPrefixStr "Execvpe fails: " message with
      | some msg => Except.error (CatBoxError.exec msg)
      | none => Except.error (CatBoxError.exec message)
    else
      Except.ok (CatBoxResult.new status signal usage)
  | none => Except.ok (CatBoxResult.new status signal usage)

/-- Parent side of `run` after a successful fork: drive the supervision
loop over the observed `waitpid` trace, then run the epilogue. The pipe
delivers exactly what the child wrote (`childPipeMessage`), with `none`
modelling a failed non-blocking read when nothing was written. -/
def runModel (ptrace : Option SyscallFilter)
    (events : List (WaitStatus × Option UserRegs))
    (execResult : Option ExecErrno) (usage : CatBoxUsage) :
    Option (Except CatBoxError CatBoxResult) :=
  (runLoop { filter := ptrace, last_signal := none } events).map
    (fun r => parentEpilogue (childPipeMessage execResult) r.1 r.2 usage)

/-- Parameters of a run consumed by the cgroup accountant
(`CatBoxParams` fields used in `src/cgroup.rs`). -/
structure CgroupParams where
  memory_limit : Nat
  process : Nat
  cgroup : String
  force : Bool

/-- Environment probed and acted on by `CatBoxCgroup::new`: which
controller names the detected hierarchy offers, whether
`builder.build(hierarchy)` succeeds (with the error text otherwise), and
whether the reset-and-add-task closure for each controller succeeds. -/
structure CgroupEnv where
  subsystems : List String
  buildOk : Bool
  buildErrMsg : String
  addTaskCpuacctOk : Bool
  addTaskMemoryOk : Bool
  addTaskCpuOk : Bool
  addTaskPidsOk : Bool

/-- Cgroup accountant handle (`CatBoxCgroup` in `src/cgroup.rs`);
`hasCgroup` models `cgroup: Option<Cgroup>` being `Some`. -/
structure CatBoxCgroup where
  name : String
  hasCgroup : Bool
  enable_cpuacct : Bool
  enable_memory : Bool
deriving DecidableEq

/-- Constructor `CatBoxCgroup::new` (`src/cgroup.rs`): probe the hierarchy
for `cpuacct`/`memory`/`cpu`/`pids`; build the group
`"{label}/{label}.{pid}"`; on build failure fail with a cgroup error when
`force` and otherwise return a fully degraded accountant; after a
successful build, a failed reset-and-add-task on `cpuacct` or `memory`
clears that enable flag (failures on `cpu`/`pids` are only logged); finally
each disabled subsystem is a cgroup error when `force` and only a warning
otherwise. -/
def CatBoxCgroup.new (env : CgroupEnv) (params : CgroupParams) (child : Int) :
    Except CatBoxError CatBoxCgroup :=
  let enable_cpuacct := env.subsystems.contains "cpuacct"
  let enable_memory := env.subsystems.contains "memory"
  let enable_cpu := env.subsystems.contains "cpu"
  let enable_pids := env.subsystems.contains "pids"
  let cgroup_name := params.cgroup ++ "/" ++ params.cgroup ++ "." ++ toString child
  if ¬ env.buildOk then
    if params.force then
      Except.error (CatBoxError.cgroup env.buildErrMsg)
    else
      Except.ok
        { name := cgroup_name
          hasCgroup := false
          enable_cpuacct := false
          enable_memory := false }
  else
    let enable_cpuacct := enable_cpuacct && env.addTaskCpuacctOk
    let enable_memory := enable_memory && env.addTaskMemoryOk
    if ¬ enable_cpuacct ∧ params.force then
      Except.error (CatBoxError.cgroup "cgroup cpuacct is not supported")
    else if ¬ enable_memory ∧ params.force then
      Except.error (CatBoxError.cgroup "cgroup memory is not supported")
    else if ¬ enable_cpu ∧ params.force then
      Except.error (CatBoxError.cgroup "cgroup cpu is not supported")
    else if ¬ enable_pids ∧ params.force then
      Except.error (CatBoxError.cgroup "cgroup pids is not supported")
    else
      Except.ok
        { name := cgroup_name
          hasCgroup := true
          enable_cpuacct := enable_cpuacct
          enable_memory := enable_memory }

/-- Timeval (nix `TimeVal`, seconds and microseconds as i64). -/
structure TimeVal where
  sec : Int
  usec : Int
deriving DecidableEq

/-- Total microseconds of a timeval (nix `num_microseconds`). -/
def TimeVal.numMicros (v : TimeVal) : Int :=
  v.sec * 1000000 + v.usec

/-- Addition of timevals as implemented by nix: add total microseconds and
renormalize by floor division (so `usec` lands in `[0, 1000000)`). -/
def TimeVal.add (a b : TimeVal) : TimeVal :=
  { sec := Int.fdiv (a.numMicros + b.numMicros) 1000000
    usec := Int.fmod (a.numMicros + b.numMicros) 1000000 }

/-- Helper `microseconds` of `src/cgroup.rs` (despite the name it yields
milliseconds): `(val.tv_sec() * 1000 + val.tv_usec() / 1000) as u64`, with
Rust's truncating i64 division and the final u64 cast. -/
def microseconds (val : TimeVal) : Nat :=
  toU64 (val.sec * 1000 + Int.tdiv val.usec 1000)

/-- Counters of the cgroup `cpuacct` controller, in nanoseconds. -/
structure CpuAcct where
  usage : Nat
  usage_user : Nat
  usage_sys : Nat

/-- Max-usage counters of the cgroup `memory` controller, in bytes. -/
structure MemStats where
  memMaxUsage : Nat
  memswMaxUsage : Nat

/-- The `getrusage(RUSAGE_CHILDREN)` snapshot: the two timevals and
`ru_maxrss` (an i64, in KiB). -/
structure Rusage where
  user_time : TimeVal
  system_time : TimeVal
  max_rss : Int

/-- Readings available to `CatBoxCgroup::usage`: the cpuacct and memory
controller contents (`none` models any failure of
`controller_of`/read/reset) and the rusage fallback. -/
structure UsageEnv where
  acct : Option CpuAcct
  mem : Option MemStats
  rusage : Rusage

/-- Method `CatBoxCgroup::get_cpuacct` reduced to its result: the cpuacct
reading is available only when the flag is enabled, the cgroup exists and
the controller read succeeds. -/
def CatBoxCgroup.get_cpuacct (c : CatBoxCgroup) (env : UsageEnv) : Option CpuAcct :=
  if c.enable_cpuacct then (if c.hasCgroup then env.acct else none) else none

/-- Method `CatBoxCgroup::get_memory` reduced to its result. -/
def CatBoxCgroup.get_memory (c : CatBoxCgroup) (env : UsageEnv) : Option MemStats :=
  if c.enable_memory then (if c.hasCgroup then env.mem else none) else none

/-- Method `CatBoxCgroup::usage` (`src/cgroup.rs`): times from the cpuacct
counters divided by 1000000 (ns→ms) when the cpuacct reading succeeds, else
from the `getrusage` timevals (total time converts the nix sum of the two
timevals); memory from the larger of the two max-usage byte counters
divided by 1024 when the memory reading succeeds, else `ru_maxrss` cast to
u64. -/
def CatBoxCgroup.usage (c : CatBoxCgroup) (env : UsageEnv) : CatBoxUsage :=
  let times :=
    match c.get_cpuacct env with
    | some acct => (acct.usage / 1000000, acct.usage_user / 1000000, acct.usage_sys / 1000000)
    | none =>
      let time_user := env.rusage.user_time
      let time_sys := env.rusage.system_time
      (microseconds (time_user.add time_sys), microseconds time_user, microseconds time_sys)
  let memory :=
    match c.get_memory env with
    | some m => max m.memMaxUsage m.memswMaxUsage / 1024
    | none => toU64 env.rusage.max_rss
  { time := times.1
    time_user := times.2.1
    time_sys := times.2.2
    memory := memory }

/-- Filesystem path: whether it is absolute, plus its components. -/
structure FsPath where
  absolute : Bool
  comps : List String
deriving DecidableEq

/-- Mount specification (`MountPoint` in `src/utils/mount.rs`). -/
structure MountPoint where
  write : Bool
  src : FsPath
  dst : FsPath

/-- Accessor `MountPoint::read_only`. -/
def MountPoint.read_only (mp : MountPoint) : Bool :=
  !mp.write

/-- The target path `new_root / strip_leading_slash(dst)` computed in
`change_root`. -/
def joinUnder (newRoot : FsPath) (dst : FsPath) : FsPath :=
  { absolute := newRoot.absolute, comps := newRoot.comps ++ dst.comps }

/-- Effects available to `change_root`: filesystem predicates and the
outcomes of the mount/chroot/chdir syscalls and of `create_dir_all`,
indexed by the concrete arguments used in the source. -/
structure FsEnv where
  isDir : FsPath → Bool
  pathExists : FsPath → Bool
  createDirAll : FsPath → Except CatBoxError Unit
  bindMount : FsPath → FsPath → Except CatBoxError Unit
  remount : FsPath → Bool → Except CatBoxError Unit
  chrootCall : FsPath → Except CatBoxError Unit
  chdirCall : FsPath → Except CatBoxError Unit

/-- Body of the per-spec work in `change_root`'s mount loop, after the
validity checks: create the target directory, bind-mount `src` onto it
recursively, and remount read-only when the spec is read-only. -/
def mountOne (env : FsEnv) (newRoot : FsPath) (mp : MountPoint) :
    Except CatBoxError Unit := do
  let target := joinUnder newRoot mp.dst
  env.createDirAll target
  env.bindMount mp.src target
  if mp.read_only then env.remount target true else pure ()

/-- Mount loop of `change_root` (`src/catbox.rs`): a spec whose `dst` is
not absolute, or not a directory, is logged and skipped with `continue`;
for the remaining specs the mount work runs and its errors propagate. -/
def mountAll (env : FsEnv) (newRoot : FsPath) :
    List MountPoint → Except CatBoxError Unit
  | [] => Except.ok ()
  | mp :: rest =>
    if ¬ mp.dst.absolute then
      mountAll env newRoot rest
    else if ¬ env.isDir mp.dst then
      mountAll env newRoot rest
    else do
      mountOne env newRoot mp
      mountAll env newRoot rest

/-- Function `change_root` (`src/catbox.rs`): bind-mount the new root onto
itself, remount it, run the mount loop over the specs, `chroot`, then
`chdir` to `cwd` when it exists and to `/` otherwise. -/
def change_root (env : FsEnv) (newRoot : FsPath) (mounts : List MountPoint)
    (cwd : FsPath) : Except CatBoxError Unit := do
  env.bindMount newRoot newRoot
  env.remount newRoot false
  mountAll env newRoot mounts
  env.chrootCall newRoot
  if env.pathExists cwd then
    env.chdirCall cwd
  else
    env.chdirCall { absolute := true, comps := [] }

/-- Repeated application of `SyscallFilter::filter` on the same stop,
threading the mutated filter state through. -/
def iterFilter (pid : Pid) (regs : UserRegs) : Nat → SyscallFilter → SyscallFilter
  | 0, f => f
  | k + 1, f => iterFilter pid regs k (f.filter pid regs).2

/-- Signal the supervision loop records into `last_signal` at a given
outcome: the TLE and RE `Stopped` arms record their signal; every other
continuing outcome (notably SIGTRAP syscall stops) records nothing. -/
def recordedStopSignal (ev : WaitStatus) : Option Signal :=
  match ev with
  | WaitStatus.Stopped _ sig =>
    if sig ∈ tleSignals ∨ sig ∈ reSignals then some sig else none
  | _ => none

/-- One update of the loop's `last_signal` by an observed outcome. -/
def recordOver (acc : Option Signal) (ev : WaitStatus) : Option Signal :=
  match recordedStopSignal ev with
  | some sig => some sig
  | none => acc

/-- Value of the loop's `last_signal` after consuming a trace prefix,
starting from `init`: the last recorded stop signal of the prefix. -/
def lastRecorded (init : Option Signal)
    (events : List (WaitStatus × Option UserRegs)) : Option Signal :=
  events.foldl (fun acc e => recordOver acc e.1) init

lemma wrap32_eq_self {x : Int} (h1 : -2 ^ 31 ≤ x) (h2 : x < 2 ^ 31) : wrap32 x = x := by
  unfold wrap32
  omega

lemma filter_singleton_step (s : Nat) (pid : Pid) (n : Int) (h0 : ¬ n = 0) :
    SyscallFilter.filter { map := [(s, SyscallPerm.Allow n)] } pid { orig_rax := s } =
      (true, { map := [(s, SyscallPerm.Allow (wrap32 (n - 1)))] }) := by
  simp [SyscallFilter.filter, lookupPerm, insertPerm, h0]

lemma iterFilter_allow_linear (pid : Pid) (s : Nat) :
    ∀ (j : Nat) (n : Int), 0 ≤ n → n < 2 ^ 31 → (j : Int) ≤ n →
      iterFilter pid { orig_rax := s } j { map := [(s, SyscallPerm.Allow n)] } =
        { map := [(s, SyscallPerm.Allow (n - j))] } := by
  intro j
  induction j with
  | zero => intro n _ _ _; simp [iterFilter]
  | succ k ih =>
    intro n h0 hlt hj
    have hne : ¬ n = 0 := by push_cast at hj; omega
    have hw : wrap32 (n - 1) = n - 1 := by
      apply wrap32_eq_self <;> omega
    rw [iterFilter, filter_singleton_step s pid n hne, hw]
    have := ih (n - 1) (by push_cast at hj; omega) (by omega) (by push_cast at hj ⊢; omega)
    rw [this]
    congr 2
    push_cast
    ring_nf

lemma iterFilter_add (pid : Pid) (regs : UserRegs) :
    ∀ (a b : Nat) (f : SyscallFilter),
      iterFilter pid regs (a + b) f = iterFilter pid regs b (iterFilter pid regs a f) := by
  intro a
  induction a with
  | zero => intro b f; simp [iterFilter]
  | succ k ih =>
    intro b f
    have hn : k + 1 + b = (k + b) + 1 := by omega
    rw [hn, iterFilter, iterFilter, ih]

lemma iterFilter_allow_run (pid : Pid) (s : Nat) :
    ∀ (j : Nat) (n : Int), n < 2 ^ 31 → -2 ^ 31 ≤ n - j →
      (∀ i : Nat, i < j → n - i ≠ 0) →
      iterFilter pid { orig_rax := s } j { map := [(s, SyscallPerm.Allow n)] } =
        { map := [(s, SyscallPerm.Allow (n - j))] } := by
  intro j
  induction j with
  | zero => intro n _ _ _; simp [iterFilter]
  | succ k ih =>
    intro n h1 h2 h3
    have hne : ¬ n = 0 := by
      have := h3 0 (by omega)
      simpa using this
    have hw : wrap32 (n - 1) = n - 1 := by
      apply wrap32_eq_self
      · push_cast at h2; omega
      · omega
    rw [iterFilter, filter_singleton_step s pid n hne, hw]
    have hrec := ih (n - 1) (by omega) (by push_cast at h2 ⊢; omega) (by
      intro i hik
      have := h3 (i + 1) (by omega)
      push_cast at this ⊢
      omega)
    rw [hrec]
    congr 2
    push_cast
    ring_nf

lemma negative_quota_trajectory (pid : Pid) (s : Nat) (n : Int)
    (h1 : -2 ^ 31 ≤ n) (h2 : n < 0) :
    iterFilter pid { orig_rax := s } (n + 2 ^ 32).toNat
        { map := [(s, SyscallPerm.Allow n)] } =
      { map := [(s, SyscallPerm.Allow 0)] } := by
  have hsplit : (n + 2 ^ 32).toNat = (n + 2 ^ 31).toNat + (1 + (2 ^ 31 - 1)) := by
    omega
  rw [hsplit, iterFilter_add, iterFilter_add]
  have hA : iterFilter pid { orig_rax := s } (n + 2 ^ 31).toNat
      { map := [(s, SyscallPerm.Allow n)] } =
      { map := [(s, SyscallPerm.Allow (-2 ^ 31))] } := by
    have hrun := iterFilter_allow_run pid s (n + 2 ^ 31).toNat n (by omega)
      (by omega) (by intro i _; omega)
    have harg : n - ((n + 2 ^ 31).toNat : Int) = -2 ^ 31 := by omega
    rw [hrun, harg]
  rw [hA]
  have h1step : ∀ f : SyscallFilter,
      iterFilter pid { orig_rax := s } 1 f = (f.filter pid { orig_rax := s }).2 :=
    fun f => rfl
  have hw : wrap32 (-2 ^ 31 - 1) = 2 ^ 31 - 1 := by unfold wrap32; decide
  rw [h1step, filter_singleton_step s pid (-2 ^ 31) (by norm_num), hw]
  have hC := iterFilter_allow_run pid s (2 ^ 31 - 1) (2 ^ 31 - 1) (by omega)
    (by omega) (by intro i hi; omega)
  rw [hC]
  have harg2 : (2 ^ 31 - 1 : Int) - ((2 ^ 31 - 1 : Nat) : Int) = 0 := by omega
  rw [harg2]

/-- C4: for every filter state and intercepted syscall number,
`SyscallFilter::filter` allows absent entries, denies `Forbid`, decrements
and allows `Allow(n)` with `n > 0` (the bound `n < 2^31` is i32
representability of the stored quota), denies `Allow(0)` without changing
state, and defers to the predicate of a `FilterFn` entry. -/
theorem filter_case_analysis (f : SyscallFilter) (pid : Pid) (regs : UserRegs) :
    (lookupPerm f.map regs.orig_rax = none → f.filter pid regs = (true, f)) ∧
    (lookupPerm f.map regs.orig_rax = some SyscallPerm.Forbid →
      f.filter pid regs = (false, f)) ∧
    (∀ n : Int, lookupPerm f.map regs.orig_rax = some (SyscallPerm.Allow n) →
      0 < n → n < 2 ^ 31 →
      f.filter pid regs =
        (true, { map := insertPerm f.map regs.orig_rax (SyscallPerm.Allow (n - 1)) })) ∧
    (lookupPerm f.map regs.orig_rax = some (SyscallPerm.Allow 0) →
      f.filter pid regs = (false, f)) ∧
    (∀ g, lookupPerm f.map regs.orig_rax = some (SyscallPerm.FilterFn g) →
      (f.filter pid regs).1 = g pid regs) := by
  refine ⟨?_, ?_, ?_, ?_, ?_⟩
  · intro h; simp [SyscallFilter.filter, h]
  · intro h; simp [SyscallFilter.filter, h]
  · intro n h hpos hlt
    have hw : wrap32 (n - 1) = n - 1 := by apply wrap32_eq_self <;> omega
    simp [SyscallFilter.filter, h, show ¬ n = 0 by omega, hw]
  · intro h; simp [SyscallFilter.filter, h]
  · intro g h; simp [SyscallFilter.filter, h]

/-- Witness for C4: a quota entry `Allow 2` on `fork` is decremented to
`Allow 1` and the call is allowed. -/
theorem filter_case_analysis_witness :
    (SyscallFilter.new.allow SYS_fork 2).filter 1 { orig_rax := SYS_fork } =
      (true,
        { map :=
            insertPerm (SyscallFilter.new.allow SYS_fork 2).map SYS_fork
              (SyscallPerm.Allow 1) }) := by
  have h :=
    (filter_case_analysis (SyscallFilter.new.allow SYS_fork 2) 1
        { orig_rax := SYS_fork }).2.2.1 2 rfl (by norm_num) (by norm_num)
  simpa using h

/-- C5 counterexample: `SYS_socket` is absent from the default filter map
(the `forbid(SYS_socket)` line is commented out in the source), so the
default filter does not map `socket` to `Forbid` as claimed. -/
theorem default_filter_no_socket :
    lookupPerm SyscallFilter.default.map SYS_socket = none := rfl

/-- C5 amended: the default filter is the `Net` preset (socketpair,
setsockopt, getsockopt, getsockname, getpeername, bind, listen, accept,
accept4, shutdown — but not socket, which is commented out) followed by the
`Process` preset (execve and execveat with quota 1; fork, vfork, clone,
clone3 forbidden), and contains no other syscall number. -/
theorem default_filter_map_exact :
    SyscallFilter.default.map =
      [(SYS_socketpair, SyscallPerm.Forbid),
       (SYS_setsockopt, SyscallPerm.Forbid),
       (SYS_getsockopt, SyscallPerm.Forbid),
       (SYS_getsockname, SyscallPerm.Forbid),
       (SYS_getpeername, SyscallPerm.Forbid),
       (SYS_bind, SyscallPerm.Forbid),
       (SYS_listen, SyscallPerm.Forbid),
       (SYS_accept, SyscallPerm.Forbid),
       (SYS_accept4, SyscallPerm.Forbid),
       (SYS_shutdown, SyscallPerm.Forbid),
       (SYS_execve, SyscallPerm.Allow 1),
       (SYS_execveat, SyscallPerm.Allow 1),
       (SYS_fork, SyscallPerm.Forbid),
       (SYS_vfork, SyscallPerm.Forbid),
       (SYS_clone, SyscallPerm.Forbid),
       (SYS_clone3, SyscallPerm.Forbid)] := rfl

/-- C10 counterexample: a quota of exactly `-2^31` (i32 minimum) does not
act as an unlimited allowance: the wrapping decrement turns it into
`2^31 - 1`, the counter then counts down to `0`, and after `2^31` allowed
calls the syscall is denied. -/
theorem negative_quota_wraps_to_forbidden :
    ((iterFilter 1 { orig_rax := SYS_fork } (2 ^ 31)
          { map := [(SYS_fork, SyscallPerm.Allow (-(2 ^ 31)))] }).filter 1
        { orig_rax := SYS_fork }).1 = false := by
  have hw : wrap32 (-(2 ^ 31) - 1) = 2 ^ 31 - 1 := by unfold wrap32; decide
  have h1 : iterFilter 1 { orig_rax := SYS_fork } (2 ^ 31)
      { map := [(SYS_fork, SyscallPerm.Allow (-(2 ^ 31)))] } =
      { map := [(SYS_fork, SyscallPerm.Allow 0)] } := by
    have hsplit : (2 ^ 31 : Nat) = 2147483647 + 1 := by norm_num
    rw [hsplit, iterFilter,
      filter_singleton_step SYS_fork 1 (-(2 ^ 31)) (by norm_num), hw]
    have := iterFilter_allow_linear 1 SYS_fork 2147483647 (2 ^ 31 - 1)
      (by norm_num) (by norm_num) (by norm_num)
    rw [this]
    norm_num
  rw [h1]
  rfl

/-- C10 amended: a call on an `Allow(n)` entry with `n < 0` is allowed and
stores `Allow` of the i32-wrapped decrement, and the deny branch fires
exactly at counter `0` — but a negative quota is NOT an unlimited
allowance: for every `-2^31 ≤ n < 0`, the counter decrements through
`-2^31`, wraps to `2^31 - 1`, and reaches `0` after exactly `2^32 + n`
allowed calls, after which the syscall is forbidden. -/
theorem negative_quota_behavior (f : SyscallFilter) (pid : Pid) (regs : UserRegs) :
    (∀ n : Int, lookupPerm f.map regs.orig_rax = some (SyscallPerm.Allow n) → n < 0 →
      f.filter pid regs =
        (true,
          { map := insertPerm f.map regs.orig_rax (SyscallPerm.Allow (wrap32 (n - 1))) })) ∧
    (∀ n : Int, lookupPerm f.map regs.orig_rax = some (SyscallPerm.Allow n) →
      ((f.filter pid regs).1 = false ↔ n = 0)) ∧
    (∀ (s : Nat) (n : Int), -2 ^ 31 ≤ n → n < 0 →
      iterFilter pid { orig_rax := s } (n + 2 ^ 32).toNat
          { map := [(s, SyscallPerm.Allow n)] } =
        { map := [(s, SyscallPerm.Allow 0)] } ∧
      (({ map := [(s, SyscallPerm.Allow 0)] } : SyscallFilter).filter pid
          { orig_rax := s }).1 = false) := by
  refine ⟨?_, ?_, ?_⟩
  · intro n h hneg
    simp [SyscallFilter.filter, h, show ¬ n = 0 by omega]
  · intro n h
    by_cases h0 : n = 0
    · subst h0; simp [SyscallFilter.filter, h]
    · simp [SyscallFilter.filter, h, h0]
  · intro s n h1 h2
    refine ⟨negative_quota_trajectory pid s n h1 h2, ?_⟩
    simp [SyscallFilter.filter, lookupPerm]

/-- Witness for C10 (amended): an `Allow (-5)` entry on `fork` allows the
call and stores the wrapped decrement `Allow (-6)`. -/
theorem negative_quota_behavior_witness :
    (SyscallFilter.new.allow SYS_fork (-5)).filter 1 { orig_rax := SYS_fork } =
      (true,
        { map :=
            insertPerm (SyscallFilter.new.allow SYS_fork (-5)).map SYS_fork
              (SyscallPerm.Allow (wrap32 (-5 - 1))) }) := by
  exact (negative_quota_behavior (SyscallFilter.new.allow SYS_fork (-5)) 1
      { orig_rax := SYS_fork }).1 (-5) rfl (by norm_num)

/-- C2: a `Stopped` outcome with a time-limit signal (SIGALRM, SIGVTALRM,
SIGXCPU) or a runtime-error signal (SIGBUS, SIGFPE, SIGILL, SIGSEGV,
SIGSYS, SIGXFSZ, SIGABRT) never breaks the supervision loop: the signal is
recorded as the last observed stop signal and the child is resumed with
`ptrace::cont(pid, signal)`, forwarding the same signal. -/
theorem stop_signal_recorded_and_forwarded (st : LoopState) (pid : Pid)
    (sig : Signal) (regs : Option UserRegs)
    (h : sig ∈ tleSignals ∨ sig ∈ reSignals) :
    loopStep st (WaitStatus.Stopped pid sig) regs =
      StepOutcome.next { st with last_signal := some sig }
        (PtraceAction.contWithSignal sig) := by
  rcases h with h | h
  · simp only [tleSignals, List.mem_cons, List.not_mem_nil, or_false] at h
    rcases h with rfl | rfl | rfl <;> rfl
  · simp only [reSignals, List.mem_cons, List.not_mem_nil, or_false] at h
    rcases h with rfl | rfl | rfl | rfl | rfl | rfl | rfl <;> rfl

/-- Witness for C2: a SIGXCPU stop is recorded and forwarded. -/
theorem stop_signal_recorded_and_forwarded_witness :
    loopStep { filter := none, last_signal := none }
        (WaitStatus.Stopped 1 Signal.SIGXCPU) none =
      StepOutcome.next { filter := none, last_signal := some Signal.SIGXCPU }
        (PtraceAction.contWithSignal Signal.SIGXCPU) := by
  exact stop_signal_recorded_and_forwarded { filter := none, last_signal := none } 1
    Signal.SIGXCPU none (Or.inl (by simp [tleSignals]))

lemma loopStep_brk_cases (st : LoopState) (ev : WaitStatus) (regs : Option UserRegs)
    (a : Option Int) (b : Option Signal)
    (h : loopStep st ev regs = StepOutcome.brk a b) :
    (∃ pid c, ev = WaitStatus.Exited pid c ∧ a = some c ∧ b = st.last_signal) ∨
    (∃ pid sig cd, ev = WaitStatus.Signaled pid sig cd ∧ a = none ∧ b = some sig) := by
  cases ev with
  | Exited pid c =>
    simp only [loopStep, StepOutcome.brk.injEq] at h
    exact Or.inl ⟨pid, c, rfl, h.1.symm, h.2.symm⟩
  | Signaled pid sig cd =>
    simp only [loopStep, StepOutcome.brk.injEq] at h
    exact Or.inr ⟨pid, sig, cd, rfl, h.1.symm, h.2.symm⟩
  | Stopped pid sig =>
    exfalso
    simp only [loopStep] at h
    repeat' split at h
    all_goals exact StepOutcome.noConfusion h
  | PtraceSyscall pid => simp [loopStep] at h
  | PtraceEvent pid sig n => simp [loopStep] at h
  | Continued pid => simp [loopStep] at h
  | StillAlive => simp [loopStep] at h

lemma loopStep_next_last_signal (st : LoopState) (ev : WaitStatus)
    (regs : Option UserRegs) (st' : LoopState) (act : PtraceAction)
    (h : loopStep st ev regs = StepOutcome.next st' act) :
    st'.last_signal = recordOver st.last_signal ev := by
  cases ev with
  | Stopped pid sig =>
    simp only [loopStep] at h
    by_cases h1 : sig = Signal.SIGALRM ∨ sig = Signal.SIGVTALRM ∨ sig = Signal.SIGXCPU
    · rw [if_pos h1] at h
      simp only [StepOutcome.next.injEq] at h
      rw [← h.1]
      have hmem : sig ∈ tleSignals ∨ sig ∈ reSignals :=
        Or.inl (by rcases h1 with rfl | rfl | rfl <;> simp [tleSignals])
      simp [recordOver, recordedStopSignal, hmem]
    · rw [if_neg h1] at h
      by_cases h2 : sig = Signal.SIGTRAP
      · subst h2
        have hnot : ¬ (Signal.SIGTRAP ∈ tleSignals ∨ Signal.SIGTRAP ∈ reSignals) := by
          decide
        rw [if_pos rfl] at h
        have hgoal : recordOver st.last_signal (WaitStatus.Stopped pid Signal.SIGTRAP) =
            st.last_signal := by
          simp [recordOver, recordedStopSignal, hnot]
        rw [hgoal]
        repeat' split at h
        all_goals simp only [StepOutcome.next.injEq] at h
        all_goals rw [← h.1]
      · by_cases h3 : sig = Signal.SIGBUS ∨ sig = Signal.SIGFPE ∨ sig = Signal.SIGILL ∨
            sig = Signal.SIGSEGV ∨ sig = Signal.SIGSYS ∨ sig = Signal.SIGXFSZ ∨
            sig = Signal.SIGABRT
        · rw [if_neg h2, if_pos h3] at h
          simp only [StepOutcome.next.injEq] at h
          rw [← h.1]
          have hmem : sig ∈ tleSignals ∨ sig ∈ reSignals :=
            Or.inr (by rcases h3 with rfl | rfl | rfl | rfl | rfl | rfl | rfl <;> simp [reSignals])
          simp [recordOver, recordedStopSignal, hmem]
        · rw [if_neg h2, if_neg h3] at h
          exact StepOutcome.noConfusion h
  | Exited pid c => simp [loopStep] at h
  | Signaled pid sig cd => simp [loopStep] at h
  | PtraceSyscall pid => simp [loopStep] at h
  | PtraceEvent pid sig n => simp [loopStep] at h
  | Continued pid => simp [loopStep] at h
  | StillAlive => simp [loopStep] at h

lemma runLoop_split :
    ∀ (events : List (WaitStatus × Option UserRegs)) (st : LoopState)
      (s : Option Int) (g : Option Signal),
      runLoop st events = some (s, g) →
      ∃ pre ev rest, events = pre ++ ev :: rest ∧
        ((∃ pid c, ev.1 = WaitStatus.Exited pid c ∧ s = some c ∧
            g = lastRecorded st.last_signal pre) ∨
         (∃ pid sig cd, ev.1 = WaitStatus.Signaled pid sig cd ∧ s = none ∧
            g = some sig)) := by
  intro events
  induction events with
  | nil => intro st s g h; simp [runLoop] at h
  | cons head rest0 ih =>
    obtain ⟨ev0, regs0⟩ := head
    intro st s g h
    simp only [runLoop] at h
    cases hstep : loopStep st ev0 regs0 with
    | brk a b =>
      rw [hstep] at h
      simp only [Option.some.injEq, Prod.mk.injEq] at h
      obtain ⟨ha, hb⟩ := h
      subst ha
      subst hb
      refine ⟨[], (ev0, regs0), rest0, rfl, ?_⟩
      rcases loopStep_brk_cases st ev0 regs0 a b hstep with
        ⟨pid, c, hev, ha2, hb2⟩ | ⟨pid, sig, cd, hev, ha2, hb2⟩
      · exact Or.inl ⟨pid, c, hev, ha2, hb2⟩
      · exact Or.inr ⟨pid, sig, cd, hev, ha2, hb2⟩
    | next st' act =>
      rw [hstep] at h
      obtain ⟨pre, ev, rest, hsplit, hcases⟩ := ih st' s g h
      have hls : st'.last_signal = recordOver st.last_signal ev0 :=
        loopStep_next_last_signal st ev0 regs0 st' act hstep
      refine ⟨(ev0, regs0) :: pre, ev, rest, by rw [hsplit, List.cons_append], ?_⟩
      have hrec : lastRecorded st.last_signal ((ev0, regs0) :: pre) =
          lastRecorded st'.last_signal pre := by
        show lastRecorded (recordOver st.last_signal ev0) pre = lastRecorded st'.last_signal pre
        rw [← hls]
      rcases hcases with ⟨pid, c, hev, hs2, hg2⟩ | hsig
      · exact Or.inl ⟨pid, c, hev, hs2, by rw [hg2, hrec]⟩
      · exact Or.inr hsig
    | panic =>
      rw [hstep] at h
      simp at h

lemma recordedStopSignal_isSome_iff (ev : WaitStatus) :
    (recordedStopSignal ev).isSome ↔
      ∃ pid sig, ev = WaitStatus.Stopped pid sig ∧
        (sig ∈ tleSignals ∨ sig ∈ reSignals) := by
  cases ev with
  | Stopped pid sig =>
    by_cases hmem : sig ∈ tleSignals ∨ sig ∈ reSignals
    · simp only [recordedStopSignal, if_pos hmem, Option.isSome_some, true_iff]
      exact ⟨pid, sig, rfl, hmem⟩
    · simp only [recordedStopSignal, if_neg hmem]
      constructor
      · intro hfalse
        simp at hfalse
      · rintro ⟨pid', sig', heq, hcls⟩
        exfalso
        injection heq with hpid hsig
        subst hsig
        exact hmem hcls
  | Exited pid c => simp [recordedStopSignal]
  | Signaled pid sig cd => simp [recordedStopSignal]
  | PtraceSyscall pid => simp [recordedStopSignal]
  | PtraceEvent pid sig n => simp [recordedStopSignal]
  | Continued pid => simp [recordedStopSignal]
  | StillAlive => simp [recordedStopSignal]

lemma recordOver_isSome_iff (acc : Option Signal) (ev : WaitStatus) :
    (recordOver acc ev).isSome ↔
      ((recordedStopSignal ev).isSome ∨ acc.isSome) := by
  unfold recordOver
  cases recordedStopSignal ev <;> simp

lemma exists_recorded_cons (ev : WaitStatus) (regs : Option UserRegs)
    (l : List (WaitStatus × Option UserRegs)) :
    (∃ pid sig r, (WaitStatus.Stopped pid sig, r) ∈ (ev, regs) :: l ∧
        (sig ∈ tleSignals ∨ sig ∈ reSignals)) ↔
      ((recordedStopSignal ev).isSome ∨
        ∃ pid sig r, (WaitStatus.Stopped pid sig, r) ∈ l ∧
          (sig ∈ tleSignals ∨ sig ∈ reSignals)) := by
  constructor
  · rintro ⟨pid, sig, r, hmem, hcls⟩
    rcases List.mem_cons.mp hmem with heq | htl
    · left
      have hev : ev = WaitStatus.Stopped pid sig := (congrArg Prod.fst heq).symm
      rw [recordedStopSignal_isSome_iff]
      exact ⟨pid, sig, hev, hcls⟩
    · exact Or.inr ⟨pid, sig, r, htl, hcls⟩
  · rintro (hs | ⟨pid, sig, r, htl, hcls⟩)
    · rw [recordedStopSignal_isSome_iff] at hs
      obtain ⟨pid, sig, hev, hcls⟩ := hs
      exact ⟨pid, sig, regs, by rw [hev]; exact List.mem_cons_self _ _, hcls⟩
    · exact ⟨pid, sig, r, List.mem_cons_of_mem _ htl, hcls⟩

lemma lastRecorded_isSome_iff :
    ∀ (l : List (WaitStatus × Option UserRegs)) (init : Option Signal),
      (lastRecorded init l).isSome ↔
        (init.isSome ∨ ∃ pid sig regs, (WaitStatus.Stopped pid sig, regs) ∈ l ∧
          (sig ∈ tleSignals ∨ sig ∈ reSignals)) := by
  intro l
  induction l with
  | nil => intro init; simp [lastRecorded]
  | cons e l ih =>
    intro init
    obtain ⟨ev, regs⟩ := e
    have hcons : lastRecorded init ((ev, regs) :: l) =
        lastRecorded (recordOver init ev) l := rfl
    rw [hcons, ih, exists_recorded_cons, recordOver_isSome_iff, or_assoc]
    exact or_left_comm

/-- C1 counterexample: a run whose trace is a SIGALRM stop followed by a
normal exit breaks out of the loop at `Exited` and yields a result with
`status = Some 0` AND `signal = Some SIGALRM` — both fields are `Some`, so
"exactly one of {status, signal} is Some" fails. -/
theorem both_status_and_signal_some :
    runModel none
        [(WaitStatus.Stopped 1 Signal.SIGALRM, none), (WaitStatus.Exited 1 0, none)]
        none { time := 0, time_user := 0, time_sys := 0, memory := 0 } =
      some (Except.ok
        { status := some 0
          signal := some Signal.SIGALRM
          time := 0
          time_user := 0
          time_sys := 0
          memory := 0 }) := rfl

/-- C1 amended: the loop breaks at the first `Exited` or `Signaled`
outcome of the trace. At `Signaled(pid, sig)` the result has
`status = None` and `signal = Some sig`; at `Exited(pid, c)` it has
`status = Some c` and `signal` equal to the last recorded stop-signal of
the consumed prefix (TLE and RE stops record their signal; SIGTRAP stops
record nothing). Hence at least one of {status, signal} is `Some`, and
both are `Some` exactly when the loop breaks at `Exited` after a recorded
(TLE or RE) stop earlier in the trace. -/
theorem result_status_signal_characterization (ptrace : Option SyscallFilter)
    (events : List (WaitStatus × Option UserRegs)) (s : Option Int)
    (g : Option Signal) (usage : CatBoxUsage)
    (h : runLoop { filter := ptrace, last_signal := none } events = some (s, g)) :
    ∃ pre ev rest, events = pre ++ ev :: rest ∧
      ((∃ pid c, ev.1 = WaitStatus.Exited pid c ∧
          (CatBoxResult.new s g usage).status = some c ∧
          (CatBoxResult.new s g usage).signal = lastRecorded none pre) ∨
        (∃ pid sig cd, ev.1 = WaitStatus.Signaled pid sig cd ∧
          (CatBoxResult.new s g usage).status = none ∧
          (CatBoxResult.new s g usage).signal = some sig)) ∧
      ((CatBoxResult.new s g usage).status.isSome ∨
        (CatBoxResult.new s g usage).signal.isSome) ∧
      (((CatBoxResult.new s g usage).status.isSome ∧
          (CatBoxResult.new s g usage).signal.isSome) ↔
        ((∃ pid c, ev.1 = WaitStatus.Exited pid c) ∧
          ∃ pid sig regs, (WaitStatus.Stopped pid sig, regs) ∈ pre ∧
            (sig ∈ tleSignals ∨ sig ∈ reSignals))) := by
  obtain ⟨pre, ev, rest, hsplit, hcases⟩ :=
    runLoop_split events { filter := ptrace, last_signal := none } s g h
  refine ⟨pre, ev, rest, hsplit, ?_, ?_, ?_⟩
  · rcases hcases with ⟨pid, c, hev, hs2, hg2⟩ | ⟨pid, sig, cd, hev, hs2, hg2⟩
    · exact Or.inl ⟨pid, c, hev, by simp [CatBoxResult.new, hs2],
        by simp [CatBoxResult.new, hg2]⟩
    · exact Or.inr ⟨pid, sig, cd, hev, by simp [CatBoxResult.new, hs2],
        by simp [CatBoxResult.new, hg2]⟩
  · rcases hcases with ⟨pid, c, hev, hs2, hg2⟩ | ⟨pid, sig, cd, hev, hs2, hg2⟩
    · exact Or.inl (by simp [CatBoxResult.new, hs2])
    · exact Or.inr (by simp [CatBoxResult.new, hg2])
  · rcases hcases with ⟨pid, c, hev, hs2, hg2⟩ | ⟨pid, sig, cd, hev, hs2, hg2⟩
    · constructor
      · rintro ⟨_, hsig⟩
        refine ⟨⟨pid, c, hev⟩, ?_⟩
        have hgi : g.isSome := by simpa [CatBoxResult.new] using hsig
        rw [hg2] at hgi
        rcases (lastRecorded_isSome_iff pre none).mp hgi with hfalse | hex
        · simp at hfalse
        · exact hex
      · rintro ⟨_, hex⟩
        refine ⟨by simp [CatBoxResult.new, hs2], ?_⟩
        have hsome : (lastRecorded none pre).isSome :=
          (lastRecorded_isSome_iff pre none).mpr (Or.inr hex)
        have hgi : g.isSome := by rw [hg2]; exact hsome
        simpa [CatBoxResult.new] using hgi
    · constructor
      · rintro ⟨hstat, _⟩
        exfalso
        simp [CatBoxResult.new, hs2] at hstat
      · rintro ⟨⟨pid', c', hev'⟩, _⟩
        exfalso
        rw [hev] at hev'
        exact WaitStatus.noConfusion hev'

/-- Witness for C1 (amended): a trace with a single normal exit splits as
the empty prefix followed by the `Exited` break. -/
theorem result_status_signal_characterization_witness :
    ∃ pre ev rest,
      [(WaitStatus.Exited 1 0, (none : Option UserRegs))] = pre ++ ev :: rest ∧
      ((∃ pid c, ev.1 = WaitStatus.Exited pid c ∧
          (CatBoxResult.new (some 0) none
            { time := 0, time_user := 0, time_sys := 0, memory := 0 }).status = some c ∧
          (CatBoxResult.new (some 0) none
            { time := 0, time_user := 0, time_sys := 0, memory := 0 }).signal =
            lastRecorded none pre) ∨
        (∃ pid sig cd, ev.1 = WaitStatus.Signaled pid sig cd ∧
          (CatBoxResult.new (some 0) none
            { time := 0, time_user := 0, time_sys := 0, memory := 0 }).status = none ∧
          (CatBoxResult.new (some 0) none
            { time := 0, time_user := 0, time_sys := 0, memory := 0 }).signal =
            some sig)) ∧
      ((CatBoxResult.new (some 0) none
          { time := 0, time_user := 0, time_sys := 0, memory := 0 }).status.isSome ∨
        (CatBoxResult.new (some 0) none
          { time := 0, time_user := 0, time_sys := 0, memory := 0 }).signal.isSome) ∧
      (((CatBoxResult.new (some 0) none
            { time := 0, time_user := 0, time_sys := 0, memory := 0 }).status.isSome ∧
          (CatBoxResult.new (some 0) none
            { time := 0, time_user := 0, time_sys := 0, memory := 0 }).signal.isSome) ↔
        ((∃ pid c, ev.1 = WaitStatus.Exited pid c) ∧
          ∃ pid sig regs, (WaitStatus.Stopped pid sig, regs) ∈ pre ∧
            (sig ∈ tleSignals ∨ sig ∈ reSignals))) := by
  exact result_status_signal_characterization none
    [(WaitStatus.Exited 1 0, none)] (some 0) none
    { time := 0, time_user := 0, time_sys := 0, memory := 0 } rfl

lemma stripPrefixChars_append :
    ∀ (p r : List Char), stripPrefixChars p (p ++ r) = some r := by
  intro p
  induction p with
  | nil => intro r; rfl
  | cons c cs ih => intro r; simp [stripPrefixChars, ih]

lemma stripPrefixStr_append (p r : String) : stripPrefixStr p (p ++ r) = some r := by
  unfold stripPrefixStr
  rw [String.data_append, stripPrefixChars_append]
  rfl

/-- C3: the parent returns an Exec error if and only if the child's
`execvpe` failed — equivalently, iff the single non-blocking pipe read
yields a non-empty payload — and the error carries the child's message
with the `"Execvpe fails: "` marker stripped. -/
theorem exec_error_iff (execResult : Option ExecErrno) (status : Option Int)
    (signal : Option Signal) (usage : CatBoxUsage) :
    ((∃ m, parentEpilogue (childPipeMessage execResult) status signal usage =
        Except.error (CatBoxError.Exec m)) ↔ execResult.isSome) ∧
    (∀ e, execResult = some e →
      parentEpilogue (childPipeMessage execResult) status signal usage =
        Except.error (CatBoxError.Exec (e.desc ++ " (Errno: " ++ e.debugName ++ ")"))) ∧
    (∀ readResult : Option String,
      (∃ m, parentEpilogue readResult status signal usage =
          Except.error (CatBoxError.Exec m)) ↔
        ∃ payload, readResult = some payload ∧ 0 < payload.length) := by
  have key : ∀ rest : String,
      parentEpilogue (some ("Execvpe fails: " ++ rest)) status signal usage =
        Except.error (CatBoxError.Exec rest) := by
    intro rest
    have hlen : 0 < ("Execvpe fails: " ++ rest).length := by
      rw [String.length_append]
      have : "Execvpe fails: ".length = 15 := rfl
      omega
    simp only [parentEpilogue, hlen, if_true, stripPrefixStr_append, CatBoxError.exec]
  refine ⟨?_, ?_, ?_⟩
  · constructor
    · rintro ⟨m, hm⟩
      cases execResult with
      | none => simp [childPipeMessage, parentEpilogue] at hm
      | some e => simp
    · intro hsome
      cases execResult with
      | none => simp at hsome
      | some e =>
        refine ⟨e.desc ++ " (Errno: " ++ e.debugName ++ ")", ?_⟩
        simpa [childPipeMessage, String.append_assoc] using
          key (e.desc ++ " (Errno: " ++ e.debugName ++ ")")
  · intro e he
    subst he
    simpa [childPipeMessage, String.append_assoc] using
      key (e.desc ++ " (Errno: " ++ e.debugName ++ ")")
  · intro readResult
    constructor
    · rintro ⟨m, hm⟩
      cases readResult with
      | none => simp [parentEpilogue] at hm
      | some payload =>
        by_cases hl : 0 < payload.length
        · exact ⟨payload, rfl, hl⟩
        · simp [parentEpilogue, hl] at hm
    · rintro ⟨payload, rfl, hl⟩
      cases hsp : stripPrefixStr "Execvpe fails: " payload with
      | some msg =>
        exact ⟨msg, by simp [parentEpilogue, hl, hsp, CatBoxError.exec]⟩
      | none =>
        exact ⟨payload, by simp [parentEpilogue, hl, hsp, CatBoxError.exec]⟩

/-- Witness for C3: a failed `execvpe` with errno `ENOENT` surfaces as an
Exec error carrying the child's message. -/
theorem exec_error_iff_witness :
    parentEpilogue
        (childPipeMessage
          (some { desc := "No such file or directory", debugName := "ENOENT" }))
        none none { time := 0, time_user := 0, time_sys := 0, memory := 0 } =
      Except.error
        (CatBoxError.Exec
          ("No such file or directory" ++ " (Errno: " ++ "ENOENT" ++ ")")) := by
  exact (exec_error_iff (some { desc := "No such file or directory", debugName := "ENOENT" })
      none none { time := 0, time_user := 0, time_sys := 0, memory := 0 }).2.1 _ rfl

/-- C6 counterexample: with `force = true`, a hierarchy offering all four
subsystems and a successful build, a failure while adding the child as a
task to `cpuacct` makes construction FAIL with a cgroup error — it is not
merely "marked disabled without failing construction" as claimed. -/
theorem addtask_failure_fails_forced_construction :
    CatBoxCgroup.new
        { subsystems := ["cpuacct", "memory", "cpu", "pids"]
          buildOk := true
          buildErrMsg := ""
          addTaskCpuacctOk := false
          addTaskMemoryOk := true
          addTaskCpuOk := true
          addTaskPidsOk := true }
        { memory_limit := 262144, process := 1, cgroup := "catj", force := true }
        42 =
      Except.error (CatBoxError.Cgroup "cgroup cpuacct is not supported") := rfl

/-- C6 amended: construction fails iff `force` is true and the build failed
or a subsystem is missing or its child-add failed (for `cpuacct`/`memory`);
with `force` false construction always succeeds; and with `force` false a
failed child-add on `cpuacct` or `memory` after a successful build marks
that subsystem disabled in the accountant without failing construction
(`cpu`/`pids` add failures are only logged). -/
theorem cgroup_forced_failure_characterization (env : CgroupEnv)
    (params : CgroupParams) (child : Int) :
    ((∃ e, CatBoxCgroup.new env params child = Except.error e) ↔
      params.force = true ∧
        (env.buildOk = false ∨
          (env.subsystems.contains "cpuacct" && env.addTaskCpuacctOk) = false ∨
          (env.subsystems.contains "memory" && env.addTaskMemoryOk) = false ∨
          env.subsystems.contains "cpu" = false ∨
          env.subsystems.contains "pids" = false)) ∧
    (params.force = false → ∃ c, CatBoxCgroup.new env params child = Except.ok c) ∧
    (params.force = false → env.buildOk = true →
      ∀ c, CatBoxCgroup.new env params child = Except.ok c →
        c.enable_cpuacct = (env.subsystems.contains "cpuacct" && env.addTaskCpuacctOk) ∧
        c.enable_memory = (env.subsystems.contains "memory" && env.addTaskMemoryOk)) := by
  refine ⟨?_, ?_, ?_⟩
  · cases h1 : params.force <;> cases h2 : env.buildOk <;>
      by_cases h3 : "cpuacct" ∈ env.subsystems <;>
      cases h4 : env.addTaskCpuacctOk <;>
      by_cases h5 : "memory" ∈ env.subsystems <;>
      cases h6 : env.addTaskMemoryOk <;>
      by_cases h7 : "cpu" ∈ env.subsystems <;>
      by_cases h8 : "pids" ∈ env.subsystems <;>
      simp [CatBoxCgroup.new, h1, h2, h3, h4, h5, h6, h7, h8]
  · intro h1
    cases h2 : env.buildOk <;>
      by_cases h3 : "cpuacct" ∈ env.subsystems <;>
      cases h4 : env.addTaskCpuacctOk <;>
      by_cases h5 : "memory" ∈ env.subsystems <;>
      cases h6 : env.addTaskMemoryOk <;>
      simp [CatBoxCgroup.new, h1, h2, h3, h4, h5, h6]
  · intro h1 h2 c hc
    by_cases h3 : "cpuacct" ∈ env.subsystems <;>
      cases h4 : env.addTaskCpuacctOk <;>
      by_cases h5 : "memory" ∈ env.subsystems <;>
      cases h6 : env.addTaskMemoryOk <;>
      simp [CatBoxCgroup.new, h1, h2, h3, h4, h5, h6] at hc <;>
      simp [← hc, h3, h4, h5, h6]

/-- Witness for C6 (amended): with `force = false` and a missing `memory`
subsystem, construction still succeeds. -/
theorem cgroup_forced_failure_characterization_witness :
    ∃ c,
      CatBoxCgroup.new
          { subsystems := ["cpuacct", "cpu", "pids"]
            buildOk := true
            buildErrMsg := ""
            addTaskCpuacctOk := true
            addTaskMemoryOk := true
            addTaskCpuOk := true
            addTaskPidsOk := true }
          { memory_limit := 262144, process := 1, cgroup := "catj", force := false }
          42 =
        Except.ok c := by
  exact (cgroup_forced_failure_characterization
      { subsystems := ["cpuacct", "cpu", "pids"]
        buildOk := true
        buildErrMsg := ""
        addTaskCpuacctOk := true
        addTaskMemoryOk := true
        addTaskCpuOk := true
        addTaskPidsOk := true }
      { memory_limit := 262144, process := 1, cgroup := "catj", force := false }
      42).2.1 rfl

/-- C7: when the cpuacct reading is available the three times are the
cpuacct counters divided by 1000000 (ns→ms); when cpuacct is disabled they
come from the `getrusage(RUSAGE_CHILDREN)` timevals via
`seconds*1000 + microseconds/1000` (`microseconds`), the total being the
conversion of the nix sum `user + sys`; memory is
`max(memory.max_usage_in_bytes, memsw.max_usage_in_bytes) / 1024` when the
memory reading is available and `ru_maxrss` (already KiB, cast to u64)
when the memory subsystem is disabled. -/
theorem usage_formulas (c : CatBoxCgroup) (env : UsageEnv) :
    (∀ a, c.enable_cpuacct = true → c.hasCgroup = true → env.acct = some a →
      (c.usage env).time = a.usage / 1000000 ∧
      (c.usage env).time_user = a.usage_user / 1000000 ∧
      (c.usage env).time_sys = a.usage_sys / 1000000) ∧
    (c.enable_cpuacct = false →
      (c.usage env).time =
        microseconds (env.rusage.user_time.add env.rusage.system_time) ∧
      (c.usage env).time_user = microseconds env.rusage.user_time ∧
      (c.usage env).time_sys = microseconds env.rusage.system_time) ∧
    (∀ m, c.enable_memory = true → c.hasCgroup = true → env.mem = some m →
      (c.usage env).memory = max m.memMaxUsage m.memswMaxUsage / 1024) ∧
    (c.enable_memory = false → (c.usage env).memory = toU64 env.rusage.max_rss) := by
  refine ⟨?_, ?_, ?_, ?_⟩
  · intro a h1 h2 h3
    simp [CatBoxCgroup.usage, CatBoxCgroup.get_cpuacct, h1, h2, h3]
  · intro h1
    simp [CatBoxCgroup.usage, CatBoxCgroup.get_cpuacct, h1]
  · intro m h1 h2 h3
    simp [CatBoxCgroup.usage, CatBoxCgroup.get_memory, h1, h2, h3]
  · intro h1
    simp [CatBoxCgroup.usage, CatBoxCgroup.get_memory, h1]

/-- Witness for C7: a cpuacct reading of 2000000 ns reports 2 ms. -/
theorem usage_formulas_witness :
    (({ name := "catj/catj.42", hasCgroup := true, enable_cpuacct := true,
        enable_memory := true } : CatBoxCgroup).usage
      { acct := some { usage := 2000000, usage_user := 1500000, usage_sys := 500000 }
        mem := some { memMaxUsage := 2048, memswMaxUsage := 4096 }
        rusage :=
          { user_time := { sec := 0, usec := 0 }
            system_time := { sec := 0, usec := 0 }
            max_rss := 0 } }).time = 2 := by
  simpa using
    ((usage_formulas
        { name := "catj/catj.42", hasCgroup := true, enable_cpuacct := true,
          enable_memory := true }
        { acct := some { usage := 2000000, usage_user := 1500000, usage_sys := 500000 }
          mem := some { memMaxUsage := 2048, memswMaxUsage := 4096 }
          rusage :=
            { user_time := { sec := 0, usec := 0 }
              system_time := { sec := 0, usec := 0 }
              max_rss := 0 } }).1
      { usage := 2000000, usage_user := 1500000, usage_sys := 500000 } rfl rfl rfl).1

/-- C8 counterexample: a comma-separated list is NOT accepted — the token
`net,process` is not split at the comma, matches no known preset, and
parsing fails with a CLI error instead of enabling both presets. -/
theorem comma_separated_presets_rejected :
    SyscallFilter.parse_presets ["net,process"] =
      Except.error (CatBoxError.Cli "Parse ptrace syscall filter string fails") := rfl

/-- C8 amended: tokens are separated by spaces only (a comma-joined token is
unknown and fatal); the token `none` makes parsing return `Ok(None)` — no
filter at all (trace disabled), not an empty filter — immediately,
discarding every remaining token; `net`/`network` enables the Network
preset, `process` the Process preset, `all` both; and any unknown token
fails with a CLI error. -/
theorem parse_presets_behavior :
    (SyscallFilter.parse_presets ["none"] = Except.ok none) ∧
    (∀ (rest : List String) (f : SyscallFilter),
      processPresets ("none" :: rest) f = Except.ok none) ∧
    (SyscallFilter.parse_presets ["net"] =
      Except.ok (some (SyscallFilter.new.enable RestrictedSyscall.Net))) ∧
    (SyscallFilter.parse_presets ["network"] =
      Except.ok (some (SyscallFilter.new.enable RestrictedSyscall.Net))) ∧
    (SyscallFilter.parse_presets ["process"] =
      Except.ok (some (SyscallFilter.new.enable RestrictedSyscall.Process))) ∧
    (SyscallFilter.parse_presets ["all"] = Except.ok (some SyscallFilter.default)) ∧
    (SyscallFilter.parse_presets ["net process"] =
      Except.ok (some SyscallFilter.default)) ∧
    (∀ (toks : List String) (f : SyscallFilter) (t : String), t ∈ toks →
      t ∉ (["none", "net", "network", "process", "all"] : List String) →
      "none" ∉ toks →
      processPresets toks f =
        Except.error (CatBoxError.cli "Parse ptrace syscall filter string fails")) := by
  refine ⟨rfl, fun rest f => rfl, rfl, rfl, rfl, rfl, rfl, ?_⟩
  intro toks
  induction toks with
  | nil => intro f t ht _ _; simp at ht
  | cons hd tl ih =>
    intro f t ht hunk hnone
    rw [processPresets]
    by_cases h1 : hd = "none"
    · exfalso
      apply hnone
      rw [← h1]
      exact List.mem_cons_self _ _
    · rw [if_neg h1]
      have htl : hd = "net" ∨ hd = "network" ∨ hd = "process" ∨ hd = "all" → t ∈ tl := by
        intro hknown
        rcases List.mem_cons.mp ht with rfl | htl
        · exfalso
          apply hunk
          rcases hknown with rfl | rfl | rfl | rfl <;> simp
        · exact htl
      have hnone' : "none" ∉ tl := fun hh => hnone (List.mem_cons_of_mem _ hh)
      by_cases h2 : hd = "net" ∨ hd = "network"
      · rw [if_pos h2]
        exact ih _ t (htl (by tauto)) hunk hnone'
      · rw [if_neg h2]
        by_cases h3 : hd = "process"
        · rw [if_pos h3]
          exact ih _ t (htl (by tauto)) hunk hnone'
        · rw [if_neg h3]
          by_cases h4 : hd = "all"
          · rw [if_pos h4]
            exact ih _ t (htl (by tauto)) hunk hnone'
          · rw [if_neg h4]

/-- Witness for C8 (amended): the unknown token `foo` is fatal. -/
theorem parse_presets_behavior_witness :
    processPresets ["foo"] SyscallFilter.new =
      Except.error (CatBoxError.cli "Parse ptrace syscall filter string fails") := by
  exact parse_presets_behavior.2.2.2.2.2.2.2 ["foo"] SyscallFilter.new "foo"
    (by decide) (by decide) (by decide)

/-- C9: a mount spec whose `dst` is not absolute, or not a directory, is
skipped: the mount loop (and `change_root` as a whole) behaves exactly as
if the spec were not in the list, so no error is ever returned because of
that spec. -/
theorem invalid_mount_spec_skipped (env : FsEnv) (newRoot : FsPath)
    (xs ys : List MountPoint) (mp : MountPoint) (cwd : FsPath)
    (h : mp.dst.absolute = false ∨ env.isDir mp.dst = false) :
    mountAll env newRoot (xs ++ mp :: ys) = mountAll env newRoot (xs ++ ys) ∧
    change_root env newRoot (xs ++ mp :: ys) cwd =
      change_root env newRoot (xs ++ ys) cwd := by
  have hmain : mountAll env newRoot (xs ++ mp :: ys) = mountAll env newRoot (xs ++ ys) := by
    induction xs with
    | nil =>
      simp only [List.nil_append]
      rcases h with h | h
      · simp [mountAll, h]
      · cases habs : mp.dst.absolute
        · simp [mountAll, habs]
        · simp [mountAll, habs, h]
    | cons x xs ih =>
      simp only [List.cons_append]
      rw [mountAll, mountAll]
      rw [ih]
  refine ⟨hmain, ?_⟩
  rw [change_root, change_root, hmain]

/-- Witness for C9: a spec with relative `dst` is dropped from the loop. -/
theorem invalid_mount_spec_skipped_witness :
    mountAll
        { isDir := fun _ => false
          pathExists := fun _ => true
          createDirAll := fun _ => Except.ok ()
          bindMount := fun _ _ => Except.ok ()
          remount := fun _ _ => Except.ok ()
          chrootCall := fun _ => Except.ok ()
          chdirCall := fun _ => Except.ok () }
        { absolute := true, comps := ["tmp", "sandbox"] }
        ([] ++
          { write := false
            src := { absolute := true, comps := ["bin"] }
            dst := { absolute := false, comps := ["bin"] } } :: []) =
      mountAll
        { isDir := fun _ => false
          pathExists := fun _ => true
          createDirAll := fun _ => Except.ok ()
          bindMount := fun _ _ => Except.ok ()
          remount := fun _ _ => Except.ok ()
          chrootCall := fun _ => Except.ok ()
          chdirCall := fun _ => Except.ok () }
        { absolute := true, comps := ["tmp", "sandbox"] }
        ([] ++ []) := by
  exact (invalid_mount_spec_skipped
      { isDir := fun _ => false
        pathExists := fun _ => true
        createDirAll := fun _ => Except.ok ()
        bindMount := fun _ _ => Except.ok ()
        remount := fun _ _ => Except.ok ()
        chrootCall := fun _ => Except.ok ()
        chdirCall := fun _ => Except.ok () }
      { absolute := true, comps := ["tmp", "sandbox"] } [] []
      { write := false
        src := { absolute := true, comps := ["bin"] }
        dst := { absolute := false, comps := ["bin"] } }
      { absolute := true, comps := ["sandbox"] }
      (Or.inl rfl)).1
